import Mathlib

/-!
Verification development for the protoc Unreal-struct generator plugin
(src/plugin/protoc_gen_unreal.cpp).

The plugin walks an already-parsed protobuf descriptor tree and emits,
per .proto file: an enums header, one USTRUCT header per top-level
message, and a converter class whose static functions build the generated
structs from protobuf message instances.

The shallow embedding below models the descriptor data the plugin reads
(never mutates) and each generator function.  Printer output is modelled
as a list of structured chunks, one constructor per printer.Print call
site in the source; renderDecl / renderConv reproduce the exact text of
the corresponding format strings, so the chunk lists determine the emitted
text verbatim.  A C++ execution that dereferences a null descriptor
pointer (which aborts the process) is modelled by the value none.
-/

/-- FieldDescriptor::Type of the protobuf descriptor library. -/
inductive FType where
  | double | float | int64 | uint64 | int32 | fixed64 | fixed32 | bool
  | string | group | message | bytes | uint32 | enum | sfixed32 | sfixed64
  | sint32 | sint64
deriving DecidableEq, Repr

/-- One (value name, integer) pair of an EnumDescriptor. -/
structure EnumValueDescriptor where
  name : String
  number : Int
deriving DecidableEq, Repr

/-- EnumDescriptor: a name and the declared-order list of values. -/
structure EnumDescriptor where
  name : String
  values : List EnumValueDescriptor
deriving DecidableEq, Repr

/-- FieldDescriptor as read by the plugin.  `inOneof` models
`containing_oneof() != nullptr`, `inRealOneof` models
`real_containing_oneof() != nullptr` (false for members of synthetic
oneofs, i.e. proto3 optional scalars).  `typeName` is
`message_type()->name()` resp. `enum_type()->name()` for message / enum
typed fields, and `entryFields` holds the fields of
`message_type()` (used only for map-entry messages, whose key and value
members the plugin looks up by name). -/
inductive FieldDescriptor where
  | mk (name : String) (ftype : FType)
       (isRepeated isMap hasPresence inOneof inRealOneof : Bool)
       (typeName : String) (entryFields : List FieldDescriptor)

def FieldDescriptor.name : FieldDescriptor → String
  | .mk n _ _ _ _ _ _ _ _ => n

def FieldDescriptor.ftype : FieldDescriptor → FType
  | .mk _ t _ _ _ _ _ _ _ => t

def FieldDescriptor.isRepeated : FieldDescriptor → Bool
  | .mk _ _ r _ _ _ _ _ _ => r

def FieldDescriptor.isMap : FieldDescriptor → Bool
  | .mk _ _ _ m _ _ _ _ _ => m

def FieldDescriptor.hasPresence : FieldDescriptor → Bool
  | .mk _ _ _ _ p _ _ _ _ => p

def FieldDescriptor.inOneof : FieldDescriptor → Bool
  | .mk _ _ _ _ _ o _ _ _ => o

def FieldDescriptor.inRealOneof : FieldDescriptor → Bool
  | .mk _ _ _ _ _ _ ro _ _ => ro

def FieldDescriptor.typeName : FieldDescriptor → String
  | .mk _ _ _ _ _ _ _ tn _ => tn

def FieldDescriptor.entryFields : FieldDescriptor → List FieldDescriptor
  | .mk _ _ _ _ _ _ _ _ efs => efs

/-- OneofDescriptor: name and the declared-order member fields. -/
structure OneofDescriptor where
  name : String
  fields : List FieldDescriptor

/-- Descriptor (a message type): name, fields (all fields, oneof members
included, in declared order), oneof declarations, nested message types,
nested enum types, and the map_entry option flag. -/
inductive Descriptor where
  | mk (name : String) (fields : List FieldDescriptor)
       (oneofs : List OneofDescriptor) (nestedTypes : List Descriptor)
       (enumTypes : List EnumDescriptor) (mapEntry : Bool)

def Descriptor.name : Descriptor → String
  | .mk n _ _ _ _ _ => n

def Descriptor.fields : Descriptor → List FieldDescriptor
  | .mk _ fs _ _ _ _ => fs

def Descriptor.oneofs : Descriptor → List OneofDescriptor
  | .mk _ _ os _ _ _ => os

def Descriptor.nestedTypes : Descriptor → List Descriptor
  | .mk _ _ _ nts _ _ => nts

def Descriptor.enumTypes : Descriptor → List EnumDescriptor
  | .mk _ _ _ _ ets _ => ets

def Descriptor.mapEntry : Descriptor → Bool
  | .mk _ _ _ _ _ me => me

/-- FileDescriptor: file name, package string, top-level enums and
top-level messages. -/
structure FileDescriptor where
  name : String
  package : String
  enumTypes : List EnumDescriptor
  messageTypes : List Descriptor

/-- Fixed string constant kUPropVisible of the plugin. -/
def kUPropVisible : String := "UPROPERTY(VisibleAnywhere, BlueprintReadOnly)\n"

/-- Fixed string constant kUstructDeclaration of the plugin. -/
def kUstructDeclaration : String := "USTRUCT(BlueprintType)\n"

/-- Fixed string constant kConverterClassName of the plugin. -/
def kConverterClassName : String := "ProtoToUStructConverter"

/-- UnrealGenerator::ToPascalCase: underscore-separated segments, first
character of each segment upper-cased, every other character lower-cased
(the bNextUpper loop of the source, with toupper / tolower acting on
ASCII letters exactly as the C functions do in the C locale). -/
def ToPascalCase (input : String) : String :=
  String.mk ((input.toList.foldl (fun (acc : List Char × Bool) c =>
    if c = '_' then (acc.1, true)
    else if acc.2 then (acc.1 ++ [c.toUpper], false)
    else (acc.1 ++ [c.toLower], false)) ([], true)).1)

/-- Whole-string tolower, modelling
`std::ranges::transform(low_name, low_name.begin(), ::tolower)`. -/
def toLowerStr (s : String) : String := String.mk (s.toList.map Char.toLower)

/-- UnrealGenerator::GetBaseUEType.  The source checks TYPE_MESSAGE and
TYPE_ENUM first, then consults its fixed seven-entry type_map
(double, float, int64, uint64, int32, bool, string), and falls back to
FString for every other kind. -/
def GetBaseUEType (f : FieldDescriptor) : String :=
  if f.ftype = FType.message then "F" ++ f.typeName
  else if f.ftype = FType.enum then "E" ++ f.typeName
  else match f.ftype with
    | FType.double => "double"
    | FType.float => "float"
    | FType.int64 => "int64"
    | FType.uint64 => "uint64"
    | FType.int32 => "int32"
    | FType.bool => "bool"
    | FType.string => "FString"
    | _ => "FString"

/-- Descriptor::FindFieldByName restricted to a field list (the plugin
only calls it on map-entry messages). -/
def FindFieldByName (fs : List FieldDescriptor) (n : String) : Option FieldDescriptor :=
  fs.find? (fun f => f.name = n)

/-- UnrealGenerator::GetUEType.  A map field becomes a TMap over the base
types of the entry's key and value members; the C++ dereferences the
FindFieldByName results unchecked, so a map entry missing either member
is a null-pointer dereference, modelled as none.  Otherwise repeated
wraps in TArray, then has_presence wraps in TOptional, else the base
type. -/
def GetUEType (f : FieldDescriptor) : Option String :=
  if f.isMap then
    match FindFieldByName f.entryFields ("key"), FindFieldByName f.entryFields ("value") with
    | some k, some v => some ("TMap<" ++ GetBaseUEType k ++ ", " ++ GetBaseUEType v ++ ">")
    | _, _ => none
  else
    if f.isRepeated then some ("TArray<" ++ GetBaseUEType f ++ ">")
    else if f.hasPresence then some ("TOptional<" ++ GetBaseUEType f ++ ">")
    else some (GetBaseUEType f)

/-- One structured chunk of declaration-side printer output; each
constructor corresponds to one printer.Print call site of GenerateEnum,
GenerateOneofEnum or GenerateStruct, carrying that call's $variables$.
renderDecl reproduces the exact format-string text. -/
inductive DeclChunk where
  | enumHeader (n : String)
  | enumMember (v : String) (num : Int)
  | enumFooter
  | oneofEnumHeader (n : String)
  | oneofEnumNone
  | oneofEnumMember (f : String)
  | structHeader (n : String)
  | oneofTypeField (en sn : String)
  | structField (t n : String)
  | structFooter
deriving DecidableEq, Repr

/-- Text of a declaration-side chunk, exactly as the corresponding
printer.Print format string produces it (structHeader merges the two
consecutive Print calls for the header and GENERATED_BODY). -/
def renderDecl : DeclChunk → String
  | .enumHeader n =>
      "UENUM(BlueprintType)\nenum class E" ++ n ++ " : uint8 \x7b\n"
  | .enumMember v num => v ++ " = " ++ toString num ++ ",\n"
  | .enumFooter => "\x7d;\n\n"
  | .oneofEnumHeader n =>
      "UENUM(BlueprintType)\nenum class E" ++ n ++ "Type : uint8 \x7b\n"
  | .oneofEnumNone => "None = 0,\n"
  | .oneofEnumMember f => f ++ ",\n"
  | .structHeader n =>
      kUstructDeclaration ++ "struct F" ++ n ++ " \x7b\n" ++ "GENERATED_BODY()\n\n"
  | .oneofTypeField en sn =>
      kUPropVisible ++ "E" ++ en ++ "Type " ++ sn ++ "Type = E" ++ en ++ "Type::None;\n\n"
  | .structField t n => kUPropVisible ++ t ++ " " ++ n ++ ";\n\n"
  | .structFooter => "\x7d;\n"

/-- UnrealGenerator::GenerateEnum: header, one member per value in
declared order (Pascal-cased name, the original number verbatim), footer. -/
def GenerateEnum (e : EnumDescriptor) : List DeclChunk :=
  [DeclChunk.enumHeader e.name]
  ++ e.values.map (fun v => DeclChunk.enumMember (ToPascalCase v.name) v.number)
  ++ [DeclChunk.enumFooter]

mutual
/-- UnrealGenerator::GenerateNestedEnums: skip map-entry messages, emit
the message's own enums, recurse into nested messages. -/
def GenerateNestedEnums : Descriptor → List DeclChunk
  | .mk _ _ _ nested enums me =>
    if me then []
    else enums.flatMap GenerateEnum ++ genNestedEnumsList nested

/-- Loop body of GenerateNestedEnums over a nested-message list. -/
def genNestedEnumsList : List Descriptor → List DeclChunk
  | [] => []
  | m :: ms => GenerateNestedEnums m ++ genNestedEnumsList ms
end

/-- Synthetic-oneof test used (three times) by the source:
`oneof->field(0)->real_containing_oneof() == nullptr`.  An empty member
list cannot occur in a valid descriptor (field(0) would be out of
bounds); it is treated as synthetic/skip here. -/
def isSyntheticOneof (o : OneofDescriptor) : Bool :=
  match o.fields with
  | [] => true
  | f :: _ => !f.inRealOneof

/-- Per-oneof output of GenerateOneofEnum: nothing for a synthetic
oneof; for a real one the discriminator enum E<msg><PascalOneof>Type with
None = 0 first and one member per oneof field in declared order. -/
def oneofEnumChunks (mn : String) (o : OneofDescriptor) : List DeclChunk :=
  if isSyntheticOneof o then []
  else
    [DeclChunk.oneofEnumHeader (mn ++ ToPascalCase o.name), DeclChunk.oneofEnumNone]
    ++ o.fields.map (fun f => DeclChunk.oneofEnumMember (ToPascalCase f.name))
    ++ [DeclChunk.enumFooter]

/-- UnrealGenerator::GenerateOneofEnum: the loop over oneof_decls. -/
def GenerateOneofEnum (msg : Descriptor) (mn : String) : List DeclChunk :=
  msg.oneofs.flatMap (oneofEnumChunks mn)

/-- Per-oneof discriminator member of the struct body (loop at the top of
GenerateStruct's struct body): skip synthetic oneofs, else one field
`<Pascal(oneof)>Type` of the discriminator enum type defaulted to None. -/
def structOneofTypeField (mn : String) (o : OneofDescriptor) : List DeclChunk :=
  if isSyntheticOneof o then []
  else [DeclChunk.oneofTypeField (mn ++ ToPascalCase o.name) (ToPascalCase o.name)]

/-- Per-field struct member emission of GenerateStruct: the source skips
a field with `real_containing_oneof() == nullptr && containing_oneof() !=
nullptr` (a synthetic-oneof member), otherwise emits one member typed by
GetUEType; none propagates the null dereference of a malformed map
entry. -/
def structFieldDecl (f : FieldDescriptor) : Option (List DeclChunk) :=
  if !f.inRealOneof && f.inOneof then some []
  else (GetUEType f).map (fun t => [DeclChunk.structField t (ToPascalCase f.name)])

/-- Field loop of GenerateStruct over the message's field list. -/
def structFieldDecls : List FieldDescriptor → Option (List DeclChunk)
  | [] => some []
  | f :: fs => do
    let d ← structFieldDecl f
    let ds ← structFieldDecls fs
    pure (d ++ ds)

/-- UnrealGenerator::GenerateStruct: oneof discriminator enums first
(outside the struct), then the struct header, the per-oneof discriminator
members, the per-field members, and the footer. -/
def GenerateStruct (msg : Descriptor) : Option (List DeclChunk) := do
  let fs ← structFieldDecls msg.fields
  pure (GenerateOneofEnum msg msg.name
    ++ [DeclChunk.structHeader msg.name]
    ++ msg.oneofs.flatMap (structOneofTypeField msg.name)
    ++ fs
    ++ [DeclChunk.structFooter])

/-- Conversion form chosen per field kind by the source's repeated
if-chains on f->type(): Convert() recursion for messages, the
UTF8_TO_TCHAR FString decode for strings, a static_cast to the carried
enum type name for enums, and a direct copy otherwise. -/
inductive ConvAssign where
  | convertMsg
  | decodeString
  | castEnum (et : String)
  | copy
deriving DecidableEq, Repr

/-- One case branch of a oneof switch in the emitted conversion: the
Pascal-cased member name (case label and output field), the lower-cased
accessor name, and the per-kind conversion form.  Every branch also sets
the discriminator and breaks (fixed text, see renderConv). -/
structure CaseBranch where
  unf : String
  pnf : String
  kind : ConvAssign
deriving DecidableEq, Repr

/-- One structured statement of the conversion function emitted by
GenerateStaticConversionFunction, mirroring the source's printer.Print
call sites; renderConv reproduces the exact text. -/
inductive ConvStmt where
  | header (n ns : String)
  | outDecl (n : String)
  | oneofSwitch (ns mn pn un : String) (branches : List CaseBranch)
  | mapLoop (un pn : String) (vkind : ConvAssign)
  | repLoop (un pn : String) (kind : ConvAssign)
  | msgGuarded (un pn : String)
  | plainAssign (un pn : String) (kind : ConvAssign)
  | returnOut
  | footer
deriving DecidableEq, Repr

/-- Singular / oneof-branch assignment text (the four Print strings of
the oneof-branch dispatch, shared verbatim with the singular non-message
dispatch of the plain-field pass). -/
def renderAssign (un pn : String) : ConvAssign → String
  | ConvAssign.convertMsg =>
      "Out." ++ un ++ " = " ++ kConverterClassName ++ "::Convert(In." ++ pn ++ "());\n"
  | ConvAssign.decodeString =>
      "Out." ++ un ++ " = FString(UTF8_TO_TCHAR(In." ++ pn ++ "().c_str()));\n"
  | ConvAssign.castEnum et =>
      "Out." ++ un ++ " = static_cast<" ++ et ++ ">(In." ++ pn ++ "());\n"
  | ConvAssign.copy => "Out." ++ un ++ " = In." ++ pn ++ "();\n"

/-- Map-loop Add line text (the four Print strings of the map branch; the
key is always the raw P.first). -/
def renderMapAdd (un : String) : ConvAssign → String
  | ConvAssign.convertMsg =>
      "Out." ++ un ++ ".Add(P.first, " ++ kConverterClassName ++ "::Convert(P.second));\n"
  | ConvAssign.decodeString =>
      "Out." ++ un ++ ".Add(P.first, FString(UTF8_TO_TCHAR(P.second.c_str())));\n"
  | ConvAssign.castEnum et =>
      "Out." ++ un ++ ".Add(P.first, static_cast<" ++ et ++ ">(P.second));\n"
  | ConvAssign.copy => "Out." ++ un ++ ".Add(P.first, P.second);\n"

/-- Repeated-loop Add line text (the four Print strings of the repeated
branch). -/
def renderRepAdd (un : String) : ConvAssign → String
  | ConvAssign.convertMsg =>
      "Out." ++ un ++ ".Add(" ++ kConverterClassName ++ "::Convert(E));\n"
  | ConvAssign.decodeString =>
      "Out." ++ un ++ ".Add(FString(UTF8_TO_TCHAR(E.c_str())));\n"
  | ConvAssign.castEnum et =>
      "Out." ++ un ++ ".Add(static_cast<" ++ et ++ ">(E));\n"
  | ConvAssign.copy => "Out." ++ un ++ ".Add(E);\n"

/-- Text of one oneof case branch: case label, the per-kind assignment,
then the discriminator set and break. -/
def renderBranch (ns mn un : String) (br : CaseBranch) : String :=
  "case " ++ ns ++ mn ++ "::k" ++ br.unf ++ ": \n"
  ++ renderAssign br.unf br.pnf br.kind
  ++ "Out." ++ un ++ "Type = E" ++ mn ++ un ++ "Type::" ++ br.unf ++ ";\nbreak;\n"

/-- Text of a conversion statement, exactly as the source's format
strings produce it. -/
def renderConv : ConvStmt → String
  | ConvStmt.header n ns =>
      "F" ++ n ++ " " ++ kConverterClassName ++ "::Convert(const " ++ ns ++ n ++ "& In) \x7b\n"
  | ConvStmt.outDecl n => "F" ++ n ++ " Out;\n"
  | ConvStmt.oneofSwitch ns mn pn un brs =>
      "switch (In." ++ pn ++ "_case()) \x7b\n"
      ++ (brs.map (renderBranch ns mn un)).foldl (fun a b => a ++ b) ""
      ++ "default: break;\n\x7d\n"
  | ConvStmt.mapLoop un pn vkind =>
      "for (const auto& P : In." ++ pn ++ "()) \x7b\n"
      ++ renderMapAdd un vkind ++ "\x7d\n"
  | ConvStmt.repLoop un pn kind =>
      "for (const auto& E : In." ++ pn ++ "()) \x7b\n"
      ++ renderRepAdd un kind ++ "\x7d\n"
  | ConvStmt.msgGuarded un pn =>
      "if (In.has_" ++ pn ++ "()) Out." ++ un ++ " = "
      ++ kConverterClassName ++ "::Convert(In." ++ pn ++ "());\n"
  | ConvStmt.plainAssign un pn kind => renderAssign un pn kind
  | ConvStmt.returnOut => "return Out;\n"
  | ConvStmt.footer => "\x7d\n\n"

/-- Per-kind dispatch on f->type() shared by the oneof-branch, repeated
and singular if-chains of the source (written out three times there):
message, string, enum with GetBaseUEType as cast target, else copy. -/
def assignKindOf (f : FieldDescriptor) : ConvAssign :=
  if f.ftype = FType.message then ConvAssign.convertMsg
  else if f.ftype = FType.string then ConvAssign.decodeString
  else if f.ftype = FType.enum then ConvAssign.castEnum (GetBaseUEType f)
  else ConvAssign.copy

/-- Per-kind dispatch of the map branch on the value field vf: identical
shape, but the enum cast target is built as "E" + vf->enum_type()->name()
at that call site. -/
def mapValueKind (vf : FieldDescriptor) : ConvAssign :=
  if vf.ftype = FType.message then ConvAssign.convertMsg
  else if vf.ftype = FType.string then ConvAssign.decodeString
  else if vf.ftype = FType.enum then ConvAssign.castEnum ("E" ++ vf.typeName)
  else ConvAssign.copy

/-- Oneof dispatch of GenerateStaticConversionFunction: skip synthetic
oneofs; for a real one emit the switch on <oneof>_case() with one branch
per member in declared order. -/
def convOneofSwitch (ns mn : String) (o : OneofDescriptor) : List ConvStmt :=
  if isSyntheticOneof o then []
  else
    [ConvStmt.oneofSwitch ns mn o.name (ToPascalCase o.name)
      (o.fields.map (fun f =>
        { unf := ToPascalCase f.name, pnf := toLowerStr f.name, kind := assignKindOf f }))]

/-- Plain-field pass of GenerateStaticConversionFunction for one field.
The source skips only fields with `containing_oneof() != nullptr &&
real_containing_oneof() == nullptr` (synthetic-oneof members); a map
field dereferences the unchecked FindFieldByName("value") result (none on
a malformed entry); then repeated, guarded singular message, and the
singular per-kind assignments. -/
def convPlainField (f : FieldDescriptor) : Option (List ConvStmt) :=
  if f.inOneof && !f.inRealOneof then some []
  else
    let pn := toLowerStr f.name
    let un := ToPascalCase f.name
    if f.isMap then
      match FindFieldByName f.entryFields ("value") with
      | none => none
      | some vf => some [ConvStmt.mapLoop un pn (mapValueKind vf)]
    else if f.isRepeated then some [ConvStmt.repLoop un pn (assignKindOf f)]
    else if f.ftype = FType.message then some [ConvStmt.msgGuarded un pn]
    else some [ConvStmt.plainAssign un pn (assignKindOf f)]

/-- Plain-field loop of GenerateStaticConversionFunction over the
message's field list. -/
def convPlainFields : List FieldDescriptor → Option (List ConvStmt)
  | [] => some []
  | f :: fs => do
    let d ← convPlainField f
    let ds ← convPlainFields fs
    pure (d ++ ds)

/-- UnrealGenerator::GenerateStaticConversionFunction: header and
zero-valued Out, the oneof switches, the plain-field pass, return and
footer. -/
def GenerateStaticConversionFunction (msg : Descriptor) (ns : String) : Option (List ConvStmt) := do
  let plains ← convPlainFields msg.fields
  pure ([ConvStmt.header msg.name ns, ConvStmt.outDecl msg.name]
    ++ msg.oneofs.flatMap (convOneofSwitch ns msg.name)
    ++ plains
    ++ [ConvStmt.returnOut, ConvStmt.footer])

/-- Base-filename computation of Generate: ToPascalCase of the file name,
then truncation at the last dot when one exists (find_last_of / substr). -/
def stripExt (s : String) : String :=
  match s.toList.reverse.dropWhile (fun c => c ≠ '.') with
  | [] => s
  | _ :: rest => String.mk rest.reverse

/-- Base filename used for the enums, converter header and converter
implementation units. -/
def baseFilename (file : FileDescriptor) : String := stripExt (ToPascalCase file.name)

/-- proto_ns of Generate: "::" for an empty package, else
"::" + package + "::". -/
def protoNs (file : FileDescriptor) : String :=
  if file.package = "" then "::" else "::" ++ file.package ++ "::"

/-- Include-dependency target of one field in the per-message unit of
Generate: for a message-typed field the referenced message's name (for a
map, the entry's value member's message type, which is null — inner
none — when the value is not message-typed).  The source dereferences
FindFieldByName("value") unchecked, so a map entry without a value member
is a null dereference, modelled as the outer none. -/
def depTargetName (f : FieldDescriptor) : Option (Option String) :=
  if f.ftype = FType.message then
    if f.isMap then
      match FindFieldByName f.entryFields ("value") with
      | none => none
      | some vf => some (if vf.ftype = FType.message then some vf.typeName else none)
    else some (some f.typeName)
  else some (none)

/-- Dependency-include loop of Generate for one message: walk the fields
in order, keep each non-null target other than the message itself, first
occurrence only (the deps std::set), in emission order. -/
def structUnitIncludes (msg : Descriptor) : Option (List String) :=
  (msg.fields.foldl (fun (acc : Option (List String)) f =>
    match acc with
    | none => none
    | some deps =>
      match depTargetName f with
      | none => none
      | some (none) => some deps
      | some (some tn) =>
        if tn ≠ msg.name ∧ ¬ deps.contains tn then some (deps ++ [tn])
        else some deps) (some []))

/-- One generated per-message header unit: its filename
("F<name>.h"), the names of the referenced-message includes and the
struct/discriminator declarations. -/
structure StructUnit where
  filename : String
  includes : List String
  decls : List DeclChunk
deriving DecidableEq, Repr

/-- Per-message unit emission of Generate: the include loop, then
GenerateStruct. -/
def generateStructUnit (msg : Descriptor) : Option StructUnit := do
  let incs ← structUnitIncludes msg
  let decls ← GenerateStruct msg
  pure { filename := "F" ++ msg.name ++ ".h", includes := incs, decls := decls }

/-- Message loop of Generate producing the per-message units, skipping
map-entry messages (the `continue`). -/
def generateStructUnitsList : List Descriptor → Option (List StructUnit)
  | [] => some []
  | m :: ms =>
    if m.mapEntry then generateStructUnitsList ms
    else do
      let u ← generateStructUnit m
      let us ← generateStructUnitsList ms
      pure (u :: us)

/-- Struct-unit pass of Generate over a file's top-level messages. -/
def generateStructUnits (file : FileDescriptor) : Option (List StructUnit) :=
  generateStructUnitsList file.messageTypes

/-- Converter-header signature list of Generate: one Convert signature
per top-level non-map-entry message. -/
def converterSignatures (file : FileDescriptor) : List String :=
  (file.messageTypes.filter (fun m => !m.mapEntry)).map Descriptor.name

/-- Converter-implementation loop of Generate over top-level messages,
skipping map-entry messages. -/
def generateConverterImplList (ns : String) : List Descriptor → Option (List ConvStmt)
  | [] => some []
  | m :: ms =>
    if m.mapEntry then generateConverterImplList ns ms
    else do
      let s ← GenerateStaticConversionFunction m ns
      let ss ← generateConverterImplList ns ms
      pure (s ++ ss)

/-- Everything UnrealGenerator::Generate writes for one file, plus its
observable result: the C++ override unconditionally returns true and
never writes to its error out-parameter, recorded verbatim in
returnValue / errorMsg.  A run that dereferences a null descriptor
pointer aborts instead of producing a GenOutput (none at the call
site). -/
structure GenOutput where
  enumUnit : List DeclChunk
  structUnits : List StructUnit
  converterSigs : List String
  converterImpl : List ConvStmt
  returnValue : Bool
  errorMsg : Option String

/-- UnrealGenerator::Generate: the enums unit (top-level enums, then
nested enums recursively), the per-message struct units, the converter
header signatures and the converter implementation; always returns true
with no error message. -/
def Generate (file : FileDescriptor) : Option GenOutput := do
  let su ← generateStructUnitsList file.messageTypes
  let ci ← generateConverterImplList (protoNs file) file.messageTypes
  pure
    { enumUnit := file.enumTypes.flatMap GenerateEnum
        ++ genNestedEnumsList file.messageTypes
      structUnits := su
      converterSigs := converterSignatures file
      converterImpl := ci
      returnValue := true
      errorMsg := none }

/-- Claim-side base-type table (spec section 4.2 step 1, as the claims
state it): every 64-bit and 32-bit integer scalar kind maps through the
fixed table to its target equivalent (signed kinds to the signed target
integer, unsigned kinds to the unsigned one, matching the table's own
int64 / uint64 / int32 choices); message and enum references get the F /
E prefixes; only kinds outside the listed families (bytes, group) fall
back to the text type. -/
def claimBaseUEType (t : FType) (tyName : String) : String :=
  match t with
  | FType.double => "double"
  | FType.float => "float"
  | FType.int64 => "int64"
  | FType.uint64 => "uint64"
  | FType.sint64 => "int64"
  | FType.fixed64 => "uint64"
  | FType.sfixed64 => "int64"
  | FType.int32 => "int32"
  | FType.uint32 => "uint32"
  | FType.sint32 => "int32"
  | FType.fixed32 => "uint32"
  | FType.sfixed32 => "int32"
  | FType.bool => "bool"
  | FType.string => "FString"
  | FType.message => "F" ++ tyName
  | FType.enum => "E" ++ tyName
  | _ => "FString"

/-- Claim-side type mapper (spec section 4.2 steps 2-5 over the claim's
step-1 table): map takes precedence, then repeated wraps in the sequence
container, then explicit presence wraps in the optional, else the base
type; the map rule needs the entry's key and value members (none when the
assumed map-entry shape is violated). -/
def claimUEType (f : FieldDescriptor) : Option String :=
  if f.isMap then
    (FindFieldByName f.entryFields ("key")).bind (fun k =>
      (FindFieldByName f.entryFields ("value")).map (fun v =>
        "TMap<" ++ claimBaseUEType k.ftype k.typeName ++ ", "
          ++ claimBaseUEType v.ftype v.typeName ++ ">"))
  else if f.isRepeated then some ("TArray<" ++ claimBaseUEType f.ftype f.typeName ++ ">")
  else if f.hasPresence then some ("TOptional<" ++ claimBaseUEType f.ftype f.typeName ++ ">")
  else some (claimBaseUEType f.ftype f.typeName)

/-- Amended base-type table: the fixed table covers exactly double,
float, int64, uint64, int32, bool and text; every other scalar kind
(uint32, sint32, sint64, fixed32, fixed64, sfixed32, sfixed64, bytes,
group) falls back to the text type; message and enum references get the
F / E prefixes. -/
def amendedBaseUEType (t : FType) (tyName : String) : String :=
  match t with
  | FType.double => "double"
  | FType.float => "float"
  | FType.int64 => "int64"
  | FType.uint64 => "uint64"
  | FType.int32 => "int32"
  | FType.bool => "bool"
  | FType.string => "FString"
  | FType.message => "F" ++ tyName
  | FType.enum => "E" ++ tyName
  | _ => "FString"

/-- Amended reference type mapper: the claim's wrapping algorithm (map
over repeated over optional over base) over the amended table. -/
def amendedUEType (f : FieldDescriptor) : Option String :=
  if f.isMap then
    (FindFieldByName f.entryFields ("key")).bind (fun k =>
      (FindFieldByName f.entryFields ("value")).map (fun v =>
        "TMap<" ++ amendedBaseUEType k.ftype k.typeName ++ ", "
          ++ amendedBaseUEType v.ftype v.typeName ++ ">"))
  else if f.isRepeated then some ("TArray<" ++ amendedBaseUEType f.ftype f.typeName ++ ">")
  else if f.hasPresence then some ("TOptional<" ++ amendedBaseUEType f.ftype f.typeName ++ ">")
  else some (amendedBaseUEType f.ftype f.typeName)

/-- Claim-side per-kind conversion rule of spec section 4.6: recurse into
the converter for messages, decode text, numerically cast enums (to the
E-prefixed generated enum type), copy everything else. -/
def specKindOf (t : FType) (tyName : String) : ConvAssign :=
  match t with
  | FType.message => ConvAssign.convertMsg
  | FType.string => ConvAssign.decodeString
  | FType.enum => ConvAssign.castEnum ("E" ++ tyName)
  | _ => ConvAssign.copy

/-- Claim-side conversion expression for a source expression under the
per-kind rule (the text a converted source value takes in the emitted
code). -/
def specConvExpr (k : ConvAssign) (src : String) : String :=
  match k with
  | ConvAssign.convertMsg => kConverterClassName ++ "::Convert(" ++ src ++ ")"
  | ConvAssign.decodeString => "FString(UTF8_TO_TCHAR(" ++ src ++ ".c_str()))"
  | ConvAssign.castEnum et => "static_cast<" ++ et ++ ">(" ++ src ++ ")"
  | ConvAssign.copy => src

/-- Claim-side map-insertion line: the key converted under keyKind and
the value converted under valKind, as the claim's "key conversion uses
the same per-kind rule as values" prescribes. -/
def specMapAddLine (un : String) (keyKind valKind : ConvAssign) : String :=
  "Out." ++ un ++ ".Add(" ++ specConvExpr keyKind ("P.first") ++ ", "
    ++ specConvExpr valKind ("P.second") ++ ");\n"

/-- Claim-side discriminator enum for one real union (spec section 4.4):
exactly one enum named by concatenating the message name and the
casing-transformed union name, an unset member first, then one member per
union field in declared order. -/
def specDiscriminatorEnum (mn : String) (o : OneofDescriptor) : List DeclChunk :=
  DeclChunk.oneofEnumHeader (mn ++ ToPascalCase o.name)
    :: DeclChunk.oneofEnumNone
    :: (o.fields.map (fun f => DeclChunk.oneofEnumMember (ToPascalCase f.name))
        ++ [DeclChunk.enumFooter])

/-- Struct-declaration header name carried by a chunk, when it is one. -/
def structHeaderName : DeclChunk → Option String
  | DeclChunk.structHeader n => some n
  | _ => none

/-- Names of the standalone struct declarations in a unit list. -/
def structNamesOfUnits (us : List StructUnit) : List String :=
  us.flatMap (fun u => u.decls.filterMap structHeaderName)

/-- Names of the per-field struct members of a declaration chunk list
(the discriminator members emitted by the oneof loop are separate
oneofTypeField chunks and are not field members). -/
def structMemberNames (cs : List DeclChunk) : List String :=
  cs.filterMap (fun c => match c with
    | DeclChunk.structField _ n => some n
    | _ => none)

/-- Member (name, number) pair of an enum-declaration chunk, when it is
one. -/
def enumMemberPair : DeclChunk → Option (String × Int)
  | DeclChunk.enumMember v num => some (v, num)
  | _ => none

/-- Member (name, number) pairs of an enum-declaration chunk list. -/
def enumMembersOf (cs : List DeclChunk) : List (String × Int) :=
  cs.filterMap enumMemberPair

/-- Test for an enum-declaration header chunk (schema-enum or
discriminator-enum header). -/
def isEnumHeaderChunk : DeclChunk → Bool
  | DeclChunk.enumHeader _ => true
  | DeclChunk.oneofEnumHeader _ => true
  | _ => false

/-- Enum-declaration header chunks (schema-enum and discriminator-enum
headers alike) of a chunk list. -/
def enumHeaderChunks (cs : List DeclChunk) : List DeclChunk :=
  cs.filter isEnumHeaderChunk

/-- Output-record field names a conversion statement assigns to: each
oneof case branch assigns its member's field, the loops and singular
statements assign theirs.  The discriminator set inside a branch targets
the separate <union>Type member, not a message field, and is not
counted. -/
def convAssignTargets : ConvStmt → List String
  | ConvStmt.oneofSwitch _ _ _ _ brs => brs.map CaseBranch.unf
  | ConvStmt.mapLoop un _ _ => [un]
  | ConvStmt.repLoop un _ _ => [un]
  | ConvStmt.msgGuarded un _ => [un]
  | ConvStmt.plainAssign un _ _ => [un]
  | _ => []

/-- Names assigned across a whole emitted conversion body. -/
def convAssignedNames (ss : List ConvStmt) : List String :=
  ss.flatMap convAssignTargets

/-- Concrete message for the mirroring claim: a real oneof "choice" with
a single int32 member "alpha" (a real-oneof member is flagged inOneof and
inRealOneof and tracks presence). -/
def alphaF : FieldDescriptor :=
  FieldDescriptor.mk "alpha" FType.int32 false false true true true "" []

/-- Oneof declaration holding alphaF. -/
def choiceOneof : OneofDescriptor := { name := "choice", fields := [alphaF] }

/-- Message Sample with the real oneof choice. -/
def sampleMsg : Descriptor := Descriptor.mk "Sample" [alphaF] [choiceOneof] [] [] false

/-- Proto3 optional scalar: the sole member of a synthetic oneof (inOneof
true, inRealOneof false, presence tracked). -/
def maybeF : FieldDescriptor :=
  FieldDescriptor.mk "maybe_val" FType.int32 false false true true false "" []

/-- Synthetic oneof wrapping maybeF. -/
def maybeOneof : OneofDescriptor := { name := "_maybe_val", fields := [maybeF] }

/-- Message Holder with the single synthetic-oneof-wrapped optional
field. -/
def holderMsg : Descriptor := Descriptor.mk "Holder" [maybeF] [maybeOneof] [] [] false

/-- Nested message Inner (not map-entry). -/
def innerMsg : Descriptor := Descriptor.mk "Inner" [] [] [] [] false

/-- Top-level message Outer with Inner nested inside it. -/
def outerMsg : Descriptor := Descriptor.mk "Outer" [] [] [innerMsg] [] false

/-- File holding Outer (and through it, Inner). -/
def fileNested : FileDescriptor :=
  { name := "nested.proto", package := "", enumTypes := [], messageTypes := [outerMsg] }

/-- Message named Foo. -/
def fooUpperMsg : Descriptor := Descriptor.mk "Foo" [] [] [] [] false

/-- Distinct message named foo; its casing-normalized name collides with
Foo's. -/
def fooLowerMsg : Descriptor := Descriptor.mk "foo" [] [] [] [] false

/-- File with the two casing-colliding messages. -/
def fileDup : FileDescriptor :=
  { name := "dup.proto", package := "", enumTypes := [],
    messageTypes := [fooUpperMsg, fooLowerMsg] }

/-- Value member of a malformed map-entry message that lacks a key
member. -/
def badEntryValF : FieldDescriptor :=
  FieldDescriptor.mk "value" FType.int32 false false false false false "" []

/-- Map field whose entry message has no key member (violating the
assumed map-entry shape). -/
def badMapF : FieldDescriptor :=
  FieldDescriptor.mk "m" FType.message true true false false false "MEntry" [badEntryValF]

/-- Message holding the malformed map field. -/
def badMsg : Descriptor := Descriptor.mk "Bad" [badMapF] [] [] [] false

/-- File holding the malformed-map message. -/
def fileBad : FileDescriptor :=
  { name := "bad.proto", package := "", enumTypes := [], messageTypes := [badMsg] }

/-- Plain singular uint32 field (no presence, no oneof). -/
def u32F : FieldDescriptor :=
  FieldDescriptor.mk "count" FType.uint32 false false false false false "" []

/-- String key member of a well-formed map entry. -/
def strKeyF : FieldDescriptor :=
  FieldDescriptor.mk "key" FType.string false false false false false "" []

/-- String value member of a well-formed map entry. -/
def strValF : FieldDescriptor :=
  FieldDescriptor.mk "value" FType.string false false false false false "" []

/-- Map field labels with string keys and string values. -/
def strMapF : FieldDescriptor :=
  FieldDescriptor.mk "labels" FType.message true true false false false
    "LabelsEntry" [strKeyF, strValF]

/-- Message Tagged holding the string-to-string map field. -/
def taggedMsg : Descriptor := Descriptor.mk "Tagged" [strMapF] [] [] [] false

/-- Real-oneof members alpha (int32) and beta (string) of message Pick,
for the unset-union claim. -/
def selAF : FieldDescriptor :=
  FieldDescriptor.mk "alpha" FType.int32 false false true true true "" []

/-- String member beta of Pick's oneof. -/
def selBF : FieldDescriptor :=
  FieldDescriptor.mk "beta" FType.string false false true true true "" []

/-- Oneof sel of message Pick. -/
def selOneof : OneofDescriptor := { name := "sel", fields := [selAF, selBF] }

/-- Message Pick with the two-member real oneof sel. -/
def pickMsg : Descriptor := Descriptor.mk "Pick" [selAF, selBF] [selOneof] [] [] false

/-- C1.  The mirroring invariant fails on the multiplicity side: for
message Sample, StructEmitter emits exactly one member Alpha for the
real-oneof field alpha, but the emitted conversion assigns Out.Alpha
twice — once inside the oneof switch branch and once more,
unconditionally, in the plain-field pass, whose skip test only excludes
synthetic-oneof members. -/
theorem conversion_double_assigns_real_union_member :
  (GenerateStruct sampleMsg).map structMemberNames = some ["Alpha"]
  ∧ (GenerateStaticConversionFunction sampleMsg ("::pkg::")).map
      (fun ss => (convAssignedNames ss).count "Alpha") = some 2 := by
  decide

/-- C2.  A field that is the sole member of a synthetic union is not
emitted at all: TypeMapper would give it TOptional of int32, but
GenerateStruct's skip test drops it from the struct body and the
conversion emits no assignment for it, so the generated record has no
such member to report presence or absence. -/
theorem synthetic_optional_field_dropped :
  GetUEType maybeF = some "TOptional<int32>"
  ∧ (GenerateStruct holderMsg).map structMemberNames = some []
  ∧ (GenerateStaticConversionFunction holderMsg ("::")).map convAssignedNames = some []
  ∧ GenerateOneofEnum holderMsg "Holder" = [] := by
  decide

/-- C3 counterexample.  Inner is a nested, non-map-entry message of the
input tree, yet the generation pass emits no standalone struct
declaration for it: the struct pass is a plain loop over top-level
messages and never recurses into nestedTypes. -/
theorem nested_message_gets_no_struct_decl :
  outerMsg.nestedTypes = [innerMsg]
  ∧ innerMsg.mapEntry = false
  ∧ (generateStructUnits fileNested).map structNamesOfUnits = some ["Outer"]
  ∧ (generateStructUnits fileNested).map
      (fun us => (structNamesOfUnits us).count "Inner") = some 0 := by
  exact ⟨rfl, rfl, by decide, by decide⟩

/-- C4.  The generation pass never fails hard.  Messages Foo and foo
transform to the same casing-normalized name, yet Generate reports
success (returns true, writes no error message) and silently emits two
separate units; and on a map field whose entry message lacks a key
member it dereferences a null pointer (modelled none) instead of
aborting with a descriptive message. -/
theorem generation_silently_accepts_collision_and_crashes_on_bad_entry :
  ToPascalCase fooUpperMsg.name = ToPascalCase fooLowerMsg.name
  ∧ (Generate fileDup).map
      (fun o => (o.returnValue, o.errorMsg, o.structUnits.map StructUnit.filename))
      = some (true, none, ["FFoo.h", "Ffoo.h"])
  ∧ (Generate fileBad).isNone = true := by
  decide

/-- C5 counterexample.  A plain uint32 field: the claim's fixed table
maps a 32-bit integer kind to its target integer equivalent, but
GetBaseUEType's table has no uint32 entry, so the code falls back to the
text type. -/
theorem uint32_field_falls_back_to_text :
  GetUEType u32F = some "FString"
  ∧ claimUEType u32F = some "uint32"
  ∧ GetUEType u32F ≠ claimUEType u32F := by
  decide

/-- C6 counterexample.  For the string-to-string map field labels the
emitted loop inserts the raw source key P.first: the emitted Add line
differs from the claim's line, which would decode the string key through
the same rule used for the value. -/
theorem map_key_inserted_unconverted :
  GenerateStaticConversionFunction taggedMsg ("::")
    = some [ConvStmt.header "Tagged" "::", ConvStmt.outDecl "Tagged",
        ConvStmt.mapLoop "Labels" "labels" ConvAssign.decodeString,
        ConvStmt.returnOut, ConvStmt.footer]
  ∧ renderMapAdd ("Labels") ConvAssign.decodeString
      = "Out.Labels.Add(P.first, FString(UTF8_TO_TCHAR(P.second.c_str())));\n"
  ∧ specMapAddLine ("Labels") ConvAssign.decodeString ConvAssign.decodeString
      = "Out.Labels.Add(FString(UTF8_TO_TCHAR(P.first.c_str())), FString(UTF8_TO_TCHAR(P.second.c_str())));\n"
  ∧ renderMapAdd ("Labels") ConvAssign.decodeString
      ≠ specMapAddLine ("Labels") ConvAssign.decodeString ConvAssign.decodeString := by
  decide

/-- C8.  For message Pick with real oneof sel, the emitted conversion
contains — after the switch whose default branch leaves the discriminator
at None — unconditional top-level assignments to both union members
(Out.Alpha and Out.Beta), because the plain-field pass skips only
synthetic-oneof members; so on a source with no member set the union
members are still assigned. -/
theorem unset_union_members_still_assigned :
  GenerateStaticConversionFunction pickMsg ("::") = some
    [ConvStmt.header "Pick" "::", ConvStmt.outDecl "Pick",
     ConvStmt.oneofSwitch "::" "Pick" "sel" "Sel"
       [{ unf := "Alpha", pnf := "alpha", kind := ConvAssign.copy },
        { unf := "Beta", pnf := "beta", kind := ConvAssign.decodeString }],
     ConvStmt.plainAssign "Alpha" "alpha" ConvAssign.copy,
     ConvStmt.plainAssign "Beta" "beta" ConvAssign.decodeString,
     ConvStmt.returnOut, ConvStmt.footer]
  ∧ (GenerateStruct pickMsg).map structMemberNames = some ["Alpha", "Beta"] := by
  decide

/-- Helper: filterMap over a mapped list where the composite always
produces a value. -/
theorem filterMap_map_eq_map {α β γ : Type} (g : α → β) (f : β → Option γ) (g2 : α → γ)
    (h : ∀ a, f (g a) = some (g2 a)) (l : List α) :
    (l.map g).filterMap f = l.map g2 := by
  induction l with
  | nil => rfl
  | cons a l ih => simp [h, ih]

/-- Helper: filterMap over a mapped list where the composite never
produces a value. -/
theorem filterMap_map_eq_nil {α β γ : Type} (g : α → β) (f : β → Option γ)
    (h : ∀ a, f (g a) = none) (l : List α) :
    (l.map g).filterMap f = [] := by
  induction l with
  | nil => rfl
  | cons a l ih => simp [h, ih]

/-- Helper: filter over a mapped list where the composite predicate is
always false. -/
theorem filter_map_eq_nil {α β : Type} (g : α → β) (p : β → Bool)
    (h : ∀ a, p (g a) = false) (l : List α) :
    (l.map g).filter p = [] := by
  induction l with
  | nil => rfl
  | cons a l ih => simp [h, ih]

/-- Helper: filterMap distributes into a flatMap. -/
theorem filterMap_flatMap {α β γ : Type} (l : List α) (g : α → List β) (f : β → Option γ) :
    (l.flatMap g).filterMap f = l.flatMap (fun a => (g a).filterMap f) := by
  induction l with
  | nil => rfl
  | cons a l ih => simp [List.filterMap_append, ih]

/-- Helper: filter distributes into a flatMap. -/
theorem filter_flatMap {α β : Type} (l : List α) (g : α → List β) (p : β → Bool) :
    (l.flatMap g).filter p = l.flatMap (fun a => (g a).filter p) := by
  induction l with
  | nil => rfl
  | cons a l ih => simp [List.filter_append, ih]

/-- Helper: a flatMap whose function is pointwise empty is empty. -/
theorem flatMap_eq_nil {α β : Type} (l : List α) (g : α → List β)
    (h : ∀ a, g a = []) : l.flatMap g = [] := by
  induction l with
  | nil => rfl
  | cons a l ih => simp [h, ih]

/-- Helper: flatMapping a guarded singleton is mapping over the filtered
list. -/
theorem flatMap_guarded_singleton {α β : Type} (l : List α) (p : α → Bool) (g : α → β) :
    l.flatMap (fun a => if p a then [] else [g a])
      = (l.filter (fun a => !p a)).map g := by
  induction l with
  | nil => rfl
  | cons a l ih =>
    by_cases h : p a = true <;> simp [h, ih]

/-- Helper: GetBaseUEType agrees with the amended reference table. -/
theorem getBaseUEType_eq_amended (f : FieldDescriptor) :
    GetBaseUEType f = amendedBaseUEType f.ftype f.typeName := by
  cases f with
  | mk n t r m p o ro tn efs => cases t <;> rfl

/-- C5 amended.  GetUEType equals the amended reference algorithm: the
fixed table covers exactly double, float, int64, uint64, int32, bool and
text (all other scalar kinds fall back to the text type), message / enum
references get the F / E prefixes, and maps take precedence over
repeated, which takes precedence over optional wrapping, else the base
type. -/
theorem uetype_matches_amended_reference (f : FieldDescriptor) :
    GetUEType f = amendedUEType f := by
  unfold GetUEType amendedUEType
  split_ifs with hm
  · rcases hk : FindFieldByName f.entryFields ("key") with _ | k <;>
      rcases hv : FindFieldByName f.entryFields ("value") with _ | v <;>
      simp [getBaseUEType_eq_amended]
  all_goals simp [getBaseUEType_eq_amended]

/-- Helper: per-oneof output of GenerateOneofEnum matches the claim-side
discriminator description. -/
theorem oneofEnumChunks_eq_spec (mn : String) (o : OneofDescriptor) :
    oneofEnumChunks mn o
      = if isSyntheticOneof o then [] else specDiscriminatorEnum mn o := by
  unfold oneofEnumChunks specDiscriminatorEnum
  split <;> rfl

/-- C7.  UnionEmitter output per union group: nothing for a synthetic
union; for a real union exactly one discriminator enum named by
concatenating the message name with the casing-transformed union name,
whose first member is the unset member with integer value 0 (the literal
member line "None = 0,"), followed by one member per union field in
declared order. -/
theorem oneof_discriminator_enum_spec (msg : Descriptor) (mn : String) :
    GenerateOneofEnum msg mn
      = msg.oneofs.flatMap
          (fun o => if isSyntheticOneof o then [] else specDiscriminatorEnum mn o)
    ∧ renderDecl DeclChunk.oneofEnumNone = "None = 0,\n" := by
  refine ⟨?_, rfl⟩
  unfold GenerateOneofEnum
  rw [funext (oneofEnumChunks_eq_spec mn)]

/-- Helper: the member pairs of a GenerateEnum output are exactly the
descriptor's values, Pascal-cased names with verbatim numbers, in
declared order. -/
theorem enumMembersOf_generateEnum (e : EnumDescriptor) :
    enumMembersOf (GenerateEnum e)
      = e.values.map (fun v => (ToPascalCase v.name, v.number)) := by
  unfold enumMembersOf GenerateEnum
  simp only [List.filterMap_append]
  rw [filterMap_map_eq_map
    (fun v : EnumValueDescriptor => DeclChunk.enumMember (ToPascalCase v.name) v.number)
    enumMemberPair
    (fun v : EnumValueDescriptor => (ToPascalCase v.name, v.number)) (fun a => rfl)]
  simp [enumMemberPair]

/-- C9.  EmitEnum produces exactly one member per input value pair,
preserving declared order and the original integer verbatim (duplicates
included, since the member list is the literal image of the value list),
and an enum with zero values emits just the header and footer of a valid
empty declaration. -/
theorem emit_enum_members_exact (e : EnumDescriptor) (n : String) :
    enumMembersOf (GenerateEnum e)
      = e.values.map (fun v => (ToPascalCase v.name, v.number))
    ∧ GenerateEnum { name := n, values := [] }
      = [DeclChunk.enumHeader n, DeclChunk.enumFooter] := by
  exact ⟨enumMembersOf_generateEnum e, rfl⟩

/-- Helper: the enum-header chunks of one oneof's UnionEmitter output. -/
theorem enumHeaderChunks_oneofEnumChunks (mn : String) (o : OneofDescriptor) :
    enumHeaderChunks (oneofEnumChunks mn o)
      = if isSyntheticOneof o then []
        else [DeclChunk.oneofEnumHeader (mn ++ ToPascalCase o.name)] := by
  unfold enumHeaderChunks oneofEnumChunks
  split
  · rfl
  · simp [List.filter_cons, List.filter_append, isEnumHeaderChunk, filter_map_eq_nil]

/-- C10.  Every emitted enum declaration, schema enum and discriminator
enum alike, is headed by a fixed "uint8" underlying-type declaration,
and member integers pass through unchanged with no range check (the
member line renders any integer, negative or above 255, verbatim). -/
theorem enum_decls_uint8_and_verbatim (e : EnumDescriptor) (msg : Descriptor)
    (mn n v : String) (k : Int) :
    enumHeaderChunks (GenerateEnum e) = [DeclChunk.enumHeader e.name]
    ∧ enumHeaderChunks (GenerateOneofEnum msg mn)
        = (msg.oneofs.filter (fun o => !isSyntheticOneof o)).map
            (fun o => DeclChunk.oneofEnumHeader (mn ++ ToPascalCase o.name))
    ∧ renderDecl (DeclChunk.enumHeader n)
        = "UENUM(BlueprintType)\nenum class E" ++ n ++ " : uint8 \x7b\n"
    ∧ renderDecl (DeclChunk.oneofEnumHeader n)
        = "UENUM(BlueprintType)\nenum class E" ++ n ++ "Type : uint8 \x7b\n"
    ∧ renderDecl (DeclChunk.enumMember v k) = v ++ " = " ++ toString k ++ ",\n"
    ∧ (enumMembersOf (GenerateEnum e)).map Prod.snd
        = e.values.map EnumValueDescriptor.number := by
  refine ⟨?_, ?_, rfl, rfl, rfl, ?_⟩
  · unfold enumHeaderChunks GenerateEnum
    simp [List.filter_append, filter_map_eq_nil, isEnumHeaderChunk]
  · unfold GenerateOneofEnum enumHeaderChunks
    rw [filter_flatMap]
    have h := enumHeaderChunks_oneofEnumChunks mn
    unfold enumHeaderChunks at h
    rw [funext h, flatMap_guarded_singleton]
  · rw [enumMembersOf_generateEnum]
    simp [List.map_map]

/-- Helper: UnionEmitter output contains no struct headers. -/
theorem structHeaderName_oneofEnumChunks (mn : String) (o : OneofDescriptor) :
    (oneofEnumChunks mn o).filterMap structHeaderName = [] := by
  unfold oneofEnumChunks
  split
  · rfl
  · simp [List.filterMap_cons, List.filterMap_append, structHeaderName, filterMap_map_eq_nil]

/-- Helper: GenerateOneofEnum output contains no struct headers. -/
theorem structHeaderName_generateOneofEnum (msg : Descriptor) (mn : String) :
    (GenerateOneofEnum msg mn).filterMap structHeaderName = [] := by
  unfold GenerateOneofEnum
  rw [filterMap_flatMap]
  exact flatMap_eq_nil _ _ (fun o => structHeaderName_oneofEnumChunks mn o)

/-- Helper: the discriminator-member chunks contain no struct headers. -/
theorem structHeaderName_structOneofTypeField (mn : String) (o : OneofDescriptor) :
    (structOneofTypeField mn o).filterMap structHeaderName = [] := by
  unfold structOneofTypeField
  split <;> rfl

/-- Helper: one field's struct-member chunks contain no struct header. -/
theorem structHeaderName_structFieldDecl (f : FieldDescriptor) (d : List DeclChunk)
    (h : structFieldDecl f = some d) : d.filterMap structHeaderName = [] := by
  unfold structFieldDecl at h
  split at h
  · injection h with h
    subst h
    rfl
  · rcases hu : GetUEType f with _ | t
    · rw [hu] at h
      cases h
    · rw [hu] at h
      injection h with h
      subst h
      rfl

/-- Helper: the field loop's struct-member chunks contain no struct
header. -/
theorem structHeaderName_structFieldDecls (fs : List FieldDescriptor)
    (ds : List DeclChunk) (h : structFieldDecls fs = some ds) :
    ds.filterMap structHeaderName = [] := by
  induction fs generalizing ds with
  | nil =>
    unfold structFieldDecls at h
    injection h with h
    subst h
    rfl
  | cons f fs ih =>
    unfold structFieldDecls at h
    rcases hd : structFieldDecl f with _ | d
    · rw [hd] at h
      cases h
    · rw [hd] at h
      rcases hds : structFieldDecls fs with _ | ds2
      · rw [hds] at h
        cases h
      · rw [hds] at h
        injection h with h
        subst h
        simp [List.filterMap_append, structHeaderName_structFieldDecl f d hd, ih ds2 hds]

/-- Helper: one successful GenerateStruct emits exactly one struct
header, that of the message itself. -/
theorem structHeaderName_generateStruct (msg : Descriptor) (ds : List DeclChunk)
    (h : GenerateStruct msg = some ds) :
    ds.filterMap structHeaderName = [msg.name] := by
  unfold GenerateStruct at h
  rcases hfs : structFieldDecls msg.fields with _ | fs
  · rw [hfs] at h
    cases h
  · rw [hfs] at h
    injection h with h
    subst h
    simp [List.filterMap_append, List.filterMap_cons, structHeaderName,
      structHeaderName_generateOneofEnum, structHeaderName_structFieldDecls msg.fields fs hfs,
      filterMap_flatMap, flatMap_eq_nil _ _ (fun o => structHeaderName_structOneofTypeField msg.name o)]

/-- Helper: one successful per-message unit carries exactly the
message's own struct header. -/
theorem structHeaderName_generateStructUnit (msg : Descriptor) (u : StructUnit)
    (h : generateStructUnit msg = some u) :
    u.decls.filterMap structHeaderName = [msg.name] := by
  unfold generateStructUnit at h
  rcases hi : structUnitIncludes msg with _ | incs
  · rw [hi] at h
    cases h
  · rw [hi] at h
    rcases hd : GenerateStruct msg with _ | ds
    · rw [hd] at h
      cases h
    · rw [hd] at h
      injection h with h
      subst h
      exact structHeaderName_generateStruct msg ds hd

/-- Helper: over any top-level message list, the emitted struct headers
are exactly the non-map-entry message names, in order. -/
theorem structUnitsList_names (ms : List Descriptor) (us : List StructUnit)
    (h : generateStructUnitsList ms = some us) :
    structNamesOfUnits us
      = (ms.filter (fun m => !m.mapEntry)).map Descriptor.name := by
  induction ms generalizing us with
  | nil =>
    unfold generateStructUnitsList at h
    injection h with h
    subst h
    rfl
  | cons m ms ih =>
    unfold generateStructUnitsList at h
    by_cases hme : m.mapEntry = true
    · rw [if_pos hme] at h
      rw [ih us h]
      simp [List.filter_cons, hme]
    · rw [if_neg hme] at h
      rcases hu : generateStructUnit m with _ | u
      · rw [hu] at h
        cases h
      · rw [hu] at h
        rcases hus : generateStructUnitsList ms with _ | us2
        · rw [hus] at h
          cases h
        · rw [hus] at h
          injection h with h
          subst h
          have hcons : structNamesOfUnits (u :: us2)
              = u.decls.filterMap structHeaderName ++ structNamesOfUnits us2 := by
            unfold structNamesOfUnits
            simp
          rw [hcons, structHeaderName_generateStructUnit m u hu, ih us2 hus]
          simp [List.filter_cons, hme]

/-- C3 amended.  The struct pass is a single non-recursive loop: for
every file whose generation does not abort, the emitted standalone struct
declarations are exactly one per top-level non-map-entry message, in
declaration order; messages nested inside other messages are never
reached and get none. -/
theorem struct_decls_are_top_level_messages_once (file : FileDescriptor)
    (us : List StructUnit) (h : generateStructUnits file = some us) :
    structNamesOfUnits us
      = (file.messageTypes.filter (fun m => !m.mapEntry)).map Descriptor.name :=
  structUnitsList_names file.messageTypes us h

/-- C3 amended, witness: the theorem applied to the concrete nested-file
input. -/
theorem struct_decls_are_top_level_messages_once_witness :
    structNamesOfUnits
        [{ filename := "FOuter.h", includes := [],
           decls := [DeclChunk.structHeader "Outer", DeclChunk.structFooter] }]
      = (fileNested.messageTypes.filter (fun m => !m.mapEntry)).map Descriptor.name :=
  struct_decls_are_top_level_messages_once fileNested
    [{ filename := "FOuter.h", includes := [],
       decls := [DeclChunk.structHeader "Outer", DeclChunk.structFooter] }]
    (by decide)

/-- Helper: the map branch's per-kind value dispatch agrees with the
claim-side per-kind rule. -/
theorem mapValueKind_eq_spec (vf : FieldDescriptor) :
    mapValueKind vf = specKindOf vf.ftype vf.typeName := by
  cases vf with
  | mk n t r m p o ro tn efs => cases t <;> rfl

/-- Helper: the emitted map Add line is the insertion of the raw source
key P.first and of P.second converted under the per-kind rule. -/
theorem renderMapAdd_spec (un : String) (k : ConvAssign) :
    renderMapAdd un k
      = "Out." ++ un ++ ".Add(P.first, " ++ specConvExpr k ("P.second") ++ ");\n" := by
  cases k with
  | convertMsg => simp [renderMapAdd, specConvExpr, kConverterClassName, String.append_assoc]
  | decodeString => simp [renderMapAdd, specConvExpr, String.append_assoc]
  | castEnum et =>
    simp only [renderMapAdd, specConvExpr]
    simp [String.append_assoc]
    rw [← String.append_assoc (".Add(P.first, ") ("static_cast<")]
    simp [String.append_assoc]
  | copy => simp [renderMapAdd, specConvExpr, String.append_assoc]

/-- Helper: whatever the per-field plain pass emits for a listed field is
among the statements of the whole pass. -/
theorem convPlainFields_mem (fs : List FieldDescriptor) :
    ∀ (ds : List ConvStmt) (f : FieldDescriptor) (l : List ConvStmt) (x : ConvStmt),
      convPlainFields fs = some ds → f ∈ fs → convPlainField f = some l →
      x ∈ l → x ∈ ds := by
  induction fs with
  | nil =>
    intro ds f l x h hf hl hx
    cases hf
  | cons g gs ih =>
    intro ds f l x h hf hl hx
    unfold convPlainFields at h
    rcases hg : convPlainField g with _ | d
    · rw [hg] at h
      cases h
    · rw [hg] at h
      rcases hgs : convPlainFields gs with _ | ds2
      · rw [hgs] at h
        cases h
      · rw [hgs] at h
        injection h with h
        subst h
        rcases List.mem_cons.mp hf with hfg | hfg
        · subst hfg
          rw [hl] at hg
          injection hg with hg
          subst hg
          exact List.mem_append_left _ hx
        · exact List.mem_append_right _ (ih ds2 f l x hgs hfg hl hx)

/-- C6 amended.  For every map field reached by the plain-field pass, the
emitted conversion contains a loop over the source pairs that inserts the
value converted under the per-kind rule while the key is inserted as-is
(raw P.first, no per-kind key conversion). -/
theorem map_loop_converts_value_only (msg : Descriptor) (ns : String)
    (ss : List ConvStmt) (f vf : FieldDescriptor)
    (h : GenerateStaticConversionFunction msg ns = some ss)
    (hf : f ∈ msg.fields)
    (hskip : (f.inOneof && !f.inRealOneof) = false)
    (hmap : f.isMap = true)
    (hvf : FindFieldByName f.entryFields ("value") = some vf) :
    ConvStmt.mapLoop (ToPascalCase f.name) (toLowerStr f.name)
        (specKindOf vf.ftype vf.typeName) ∈ ss
    ∧ renderConv (ConvStmt.mapLoop (ToPascalCase f.name) (toLowerStr f.name)
          (specKindOf vf.ftype vf.typeName))
        = "for (const auto& P : In." ++ toLowerStr f.name ++ "()) \x7b\n"
          ++ ("Out." ++ ToPascalCase f.name ++ ".Add(P.first, "
              ++ specConvExpr (specKindOf vf.ftype vf.typeName) ("P.second") ++ ");\n")
          ++ "\x7d\n" := by
  constructor
  · have hcond : ¬((f.inOneof && !f.inRealOneof) = true) := by
      rw [hskip]
      exact Bool.false_ne_true
    have hpf : convPlainField f
        = some [ConvStmt.mapLoop (ToPascalCase f.name) (toLowerStr f.name)
            (specKindOf vf.ftype vf.typeName)] := by
      unfold convPlainField
      rw [if_neg hcond, if_pos hmap, hvf]
      simp [mapValueKind_eq_spec]
    unfold GenerateStaticConversionFunction at h
    rcases hps : convPlainFields msg.fields with _ | plains
    · rw [hps] at h
      cases h
    · rw [hps] at h
      injection h with h
      subst h
      have hmem : ConvStmt.mapLoop (ToPascalCase f.name) (toLowerStr f.name)
          (specKindOf vf.ftype vf.typeName) ∈ plains :=
        convPlainFields_mem msg.fields plains f _ _ hps hf hpf (List.mem_singleton.mpr rfl)
      simp only [List.mem_append]
      exact Or.inl (Or.inr hmem)
  · simp only [renderConv]
    rw [renderMapAdd_spec]

/-- C6 amended, witness: the theorem applied to the concrete
string-to-string map message. -/
theorem map_loop_converts_value_only_witness :
    ConvStmt.mapLoop (ToPascalCase strMapF.name) (toLowerStr strMapF.name)
        (specKindOf strValF.ftype strValF.typeName)
      ∈ [ConvStmt.header "Tagged" "::", ConvStmt.outDecl "Tagged",
         ConvStmt.mapLoop "Labels" "labels" ConvAssign.decodeString,
         ConvStmt.returnOut, ConvStmt.footer]
    ∧ renderConv (ConvStmt.mapLoop (ToPascalCase strMapF.name) (toLowerStr strMapF.name)
          (specKindOf strValF.ftype strValF.typeName))
        = "for (const auto& P : In." ++ toLowerStr strMapF.name ++ "()) \x7b\n"
          ++ ("Out." ++ ToPascalCase strMapF.name ++ ".Add(P.first, "
              ++ specConvExpr (specKindOf strValF.ftype strValF.typeName) ("P.second") ++ ");\n")
          ++ "\x7d\n" :=
  map_loop_converts_value_only taggedMsg "::" _ strMapF strValF (by decide)
    (List.mem_singleton.mpr rfl) (by decide) (by decide) (by rfl)
